import Mathlib

/-!
Verification of the beerbot-go decision engine.

Shallow embedding of the Go sources:
  * `internal/decision/model.go`    — `RoleState`, `WeekState`, `ExtractRoleHistory`
  * `internal/decision/blackbox.go` — `BlackBoxOrderWithPipeline`, `movingAverageIncomingOrders`
  * the buffered HTTP decision handler — the per-role decision loop and the
    `maxOrder` cap (protocol plumbing such as JSON decoding is out of scope).

Go `int` is modelled as `Int` (the spec states no overflow handling is required
for the value ranges of the simulated game); Go's truncating integer division
is `Int.tdiv`; Go maps keyed by role name are modelled as association lists.
-/

/-- One week's observation for one role (`RoleState` in model.go). -/
structure RoleState where
  inventory : Int
  backlog : Int
  incomingOrders : Int
  arrivingShipments : Int
deriving Repr, DecidableEq

/-- One simulated week (`WeekState` in model.go): per-role observations and
per-role orders, as association lists standing for the Go maps. -/
structure WeekState where
  week : Int
  roles : List (String × RoleState)
  orders : List (String × Int)
deriving Repr, DecidableEq

/-- `ExtractRoleHistory` from model.go: one `RoleState` per week; a week whose
`roles` map lacks the role contributes the zero value `RoleState`. -/
def ExtractRoleHistory (weeks : List WeekState) (role : String) : List RoleState :=
  weeks.map (fun w => (w.roles.lookup role).getD ⟨0, 0, 0, 0⟩)

/-- Modelled from the spec: `ExtractRoleOrders` is called by the buffered
handler but its definition is not among the included sources.  Per the spec's
data model, `OrderHistory` is index-aligned with the weeks and a missing entry
contributes zero, so each week yields `orders[role]` when present, else 0. -/
def ExtractRoleOrders (weeks : List WeekState) (role : String) : List Int :=
  weeks.map (fun w => (w.orders.lookup role).getD 0)

/-- `movingAverageIncomingOrders` from blackbox.go: truncating integer average
of `incomingOrders` over the last `window` weeks (clamped to the available
history; a window below 1 is treated as 1). -/
def movingAverageIncomingOrders (history : List RoleState) (window : Int) : Int :=
  let w := if window < 1 then 1 else window
  let n : Int := history.length
  let start : Int := if n - w < 0 then 0 else n - w
  let tail := history.drop start.toNat
  let sum := (tail.map RoleState.incomingOrders).sum
  let count : Int := tail.length
  if count = 0 then 0 else sum.tdiv count

/-- The pipeline loop of `BlackBoxOrderWithPipeline`: fold over the history in
chronological order, at each step adding the aligned order (0 when the order
history has run out), subtracting the week's arriving shipments, and clamping
the running total at zero. -/
def pipelineAux : Int → List RoleState → List Int → Int
  | acc, [], _ => acc
  | acc, h :: hs, os =>
    let acc1 := acc + os.headD 0 - h.arrivingShipments
    pipelineAux (if acc1 < 0 then 0 else acc1) hs os.tail

/-- The successive values of the pipeline running total after each loop
iteration (instrumentation of `pipelineAux` for the invariant claims). -/
def pipelineTrace : Int → List RoleState → List Int → List Int
  | _, [], _ => []
  | acc, h :: hs, os =>
    let acc1 := acc + os.headD 0 - h.arrivingShipments
    let acc2 := if acc1 < 0 then 0 else acc1
    acc2 :: pipelineTrace acc2 hs os.tail

/-- `BlackBoxOrderWithPipeline` from blackbox.go.  The `safetyStock` parameter
is accepted but unused, exactly as in the source. -/
def BlackBoxOrderWithPipeline (roleHistory : List RoleState) (roleOrders : List Int)
    (safetyStock : Int) (window : Int) : Int :=
  if roleHistory.length = 0 then 10
  else
    let last := roleHistory.getLastD ⟨0, 0, 0, 0⟩
    let forecast := movingAverageIncomingOrders roleHistory window
    let pipeline := pipelineAux 0 roleHistory roleOrders
    let L : Int := 2
    let targetPosition := forecast * (L + 1)
    let inventoryPosition := last.inventory - last.backlog + pipeline
    let order := targetPosition - inventoryPosition
    if order < 0 then 0 else order

/-- Modelled from the spec: the simple (non-pipeline) decision policy
`decideSimple` of spec §4.3 is described and required by the spec but its body
is not among the included sources (only its doc comment survives atop
blackbox.go): empty history returns 10, otherwise
`forecast + lastWeek.backlog + safetyStock − lastWeek.inventory` clamped at 0. -/
def BlackBoxOrder (roleHistory : List RoleState) (safetyStock : Int) (window : Int) : Int :=
  if roleHistory.length = 0 then 10
  else
    let last := roleHistory.getLastD ⟨0, 0, 0, 0⟩
    let forecast := movingAverageIncomingOrders roleHistory window
    let order := forecast + last.backlog + safetyStock - last.inventory
    if order < 0 then 0 else order

/-- The BlackBox tuning knobs of the handler's `Config` (the protocol fields —
email, algorithm name, version, supports — are out of the spec's scope). -/
structure Config where
  safetyStock : Int
  maWindow : Int
  maxOrder : Int
deriving Repr, DecidableEq

/-- The caller-side cap of the buffered handler: clamp to `maxOrder` only when
`maxOrder > 0` and the value exceeds it. -/
def applyMaxOrder (maxOrder o : Int) : Int :=
  if maxOrder > 0 ∧ o > maxOrder then maxOrder else o

/-- The four supply-chain roles, in the handler's iteration order. -/
def allRoles : List String := ["retailer", "wholesaler", "distributor", "factory"]

/-- The per-role decision loop of `NewDecisionHandlerBuffered`: extract the
role's history and order history, run the pipeline-aware policy, apply the
`maxOrder` cap. -/
def decideOrders (cfg : Config) (weeks : List WeekState) : List (String × Int) :=
  allRoles.map fun role =>
    let history := ExtractRoleHistory weeks role
    let ordersHist := ExtractRoleOrders weeks role
    let o := BlackBoxOrderWithPipeline history ordersHist cfg.safetyStock cfg.maWindow
    let o2 := if cfg.maxOrder > 0 ∧ o > cfg.maxOrder then cfg.maxOrder else o
    (role, o2)

/-- The weekly request fields the decision path reads. -/
structure WeeklyRequest where
  week : Int
  weeksTotal : Int
  seed : Int
  weeks : List WeekState
deriving Repr, DecidableEq

/-- `defaultOrders` from the handler: the fallback response. -/
def defaultOrders : List (String × Int) :=
  [("retailer", 10), ("wholesaler", 10), ("distributor", 10), ("factory", 10)]

/-- The weekly branch of `NewDecisionHandlerBuffered`: an empty `Weeks` slice
gets the default orders, otherwise the per-role decision loop runs. -/
def handleWeekly (cfg : Config) (req : WeeklyRequest) : List (String × Int) :=
  if req.weeks.length = 0 then defaultOrders else decideOrders cfg req.weeks

/-! ### Helper lemmas shared between claims -/

/-- On a non-empty history the pipeline-aware policy is the clamped
order-up-to formula. -/
lemma blackBoxPipeline_max_formula (hist : List RoleState) (orders : List Int)
    (s w : Int) (h : ¬ hist.length = 0) :
    BlackBoxOrderWithPipeline hist orders s w =
      max 0 (movingAverageIncomingOrders hist w * 3 -
        ((hist.getLastD ⟨0, 0, 0, 0⟩).inventory - (hist.getLastD ⟨0, 0, 0, 0⟩).backlog +
          pipelineAux 0 hist orders)) := by
  simp only [BlackBoxOrderWithPipeline, if_neg h]
  split <;> omega

/-- On a non-empty history the simple policy is the clamped
forecast-plus-backlog formula. -/
lemma blackBox_max_formula (hist : List RoleState) (s w : Int)
    (h : ¬ hist.length = 0) :
    BlackBoxOrder hist s w =
      max 0 (movingAverageIncomingOrders hist w + (hist.getLastD ⟨0, 0, 0, 0⟩).backlog + s -
        (hist.getLastD ⟨0, 0, 0, 0⟩).inventory) := by
  simp only [BlackBoxOrder, if_neg h]
  split <;> omega

/-- Every intermediate pipeline running total is non-negative, from any
starting accumulator. -/
lemma pipelineTrace_mem_nonneg (hs : List RoleState) :
    ∀ (os : List Int) (acc : Int), ∀ x ∈ pipelineTrace acc hs os, 0 ≤ x := by
  induction hs with
  | nil => intro os acc x hx; simp [pipelineTrace] at hx
  | cons h hs ih =>
    intro os acc x hx
    simp only [pipelineTrace] at hx
    rcases List.mem_cons.mp hx with hx | hx
    · subst hx; split <;> omega
    · exact ih os.tail _ x hx

/-- The pipeline loop's final value is the last entry of its trace. -/
lemma pipelineAux_eq_trace (hs : List RoleState) :
    ∀ (os : List Int) (acc : Int),
      pipelineAux acc hs os = (pipelineTrace acc hs os).getLastD acc := by
  induction hs with
  | nil => intro os acc; rfl
  | cons h hs ih =>
    intro os acc
    simp only [pipelineAux, pipelineTrace, List.getLastD_cons]
    exact ih os.tail _

/-! ### Claim theorems -/

/-- C1: on every non-empty role history, for every order history, safetyStock
and window, `BlackBoxOrderWithPipeline` returns
`max 0 (forecast × 3 − (last.inventory − last.backlog + pipeline))`, where
`forecast` is the demand forecaster over the window, `pipeline` the
zero-clamped running total over the history, and `last` the final
observation. -/
theorem pipeline_policy_formula (hist : List RoleState) (orders : List Int)
    (s w : Int) (h : hist ≠ []) :
    BlackBoxOrderWithPipeline hist orders s w =
      max 0 (movingAverageIncomingOrders hist w * 3 -
        ((hist.getLastD ⟨0, 0, 0, 0⟩).inventory - (hist.getLastD ⟨0, 0, 0, 0⟩).backlog +
          pipelineAux 0 hist orders)) :=
  blackBoxPipeline_max_formula hist orders s w (by simpa [List.length_eq_zero] using h)

/-- C1 witness: the spec's worked example — single week inventory=12,
backlog=0, incomingOrders=4, arrivingShipments=4, orderHistory=[4],
safetyStock=10, window=4 — yields order 0. -/
theorem pipeline_policy_formula_witness :
    BlackBoxOrderWithPipeline [⟨12, 0, 4, 4⟩] [4] 10 4 = 0 := by
  rw [pipeline_policy_formula [⟨12, 0, 4, 4⟩] [4] 10 4 (by decide)]
  decide

/-- C2: the demand forecaster returns the truncating integer average of
`incomingOrders` over the last `min (max w 1) (length history)` weeks, and 0
on an empty history regardless of the window. -/
theorem forecaster_truncating_average (history : List RoleState) (w : Int) :
    movingAverageIncomingOrders history w =
      if history.length = 0 then 0
      else
        ((history.drop (history.length - min (max w 1).toNat history.length)).map
            RoleState.incomingOrders).sum.tdiv
          ((min (max w 1).toNat history.length : Nat) : Int) := by
  by_cases hn : history.length = 0
  · rw [if_pos hn]
    have hnil : history = [] := List.length_eq_zero.mp hn
    subst hnil
    simp [movingAverageIncomingOrders]
  · rw [if_neg hn]
    simp only [movingAverageIncomingOrders]
    have hw : (if w < 1 then 1 else w) = max w 1 := by
      rcases lt_or_le w 1 with hlt | hle
      · rw [if_pos hlt, max_eq_right hlt.le]
      · rw [if_neg (not_lt.mpr hle), max_eq_left hle]
    rw [hw]
    have h1 : (1 : Int) ≤ max w 1 := le_max_right w 1
    have hstart : (if (history.length : Int) - max w 1 < 0 then 0
          else (history.length : Int) - max w 1).toNat
        = history.length - min (max w 1).toNat history.length := by
      split <;> omega
    rw [hstart]
    have hcount : ((history.drop
          (history.length - min (max w 1).toNat history.length)).length : Int)
        = ((min (max w 1).toNat history.length : Nat) : Int) := by
      rw [List.length_drop]
      omega
    rw [hcount]
    have hk : ((min (max w 1).toNat history.length : Nat) : Int) ≠ 0 := by omega
    rw [if_neg hk]

/-- C3: the pipeline is the final value of the zero-clamped chronological
running total, and that running total is non-negative at every intermediate
step, for every input sequence of orders and shipments. -/
theorem pipeline_nonneg_invariant (hs : List RoleState) (os : List Int) :
    (∀ x ∈ pipelineTrace 0 hs os, 0 ≤ x) ∧
    pipelineAux 0 hs os = (pipelineTrace 0 hs os).getLastD 0 :=
  ⟨pipelineTrace_mem_nonneg hs os 0, pipelineAux_eq_trace hs os 0⟩

/-- C3 witness: on a history whose first week's shipments exceed the order,
the first intermediate total is clamped to 0 and the final pipeline is the
last trace entry. -/
theorem pipeline_nonneg_invariant_witness :
    (0 : Int) ≤ (pipelineTrace 0 [⟨0, 0, 0, 5⟩, ⟨0, 0, 0, 1⟩] [3, 7]).getLastD 0 ∧
    pipelineAux 0 [⟨0, 0, 0, 5⟩, ⟨0, 0, 0, 1⟩] [3, 7] =
      (pipelineTrace 0 [⟨0, 0, 0, 5⟩, ⟨0, 0, 0, 1⟩] [3, 7]).getLastD 0 :=
  ⟨(pipeline_nonneg_invariant [⟨0, 0, 0, 5⟩, ⟨0, 0, 0, 1⟩] [3, 7]).1
      ((pipelineTrace 0 [⟨0, 0, 0, 5⟩, ⟨0, 0, 0, 1⟩] [3, 7]).getLastD 0) (by decide),
   (pipeline_nonneg_invariant [⟨0, 0, 0, 5⟩, ⟨0, 0, 0, 1⟩] [3, 7]).2⟩

/-- C4: both decision policies return exactly 10 on an empty history,
independent of the order history, safetyStock and window. -/
theorem policies_empty_history_fallback (orders : List Int) (s w : Int) :
    BlackBoxOrderWithPipeline [] orders s w = 10 ∧ BlackBoxOrder [] s w = 10 :=
  ⟨rfl, rfl⟩

/-- C5: both policies always return a value ≥ 0, and whenever the unclamped
order formula is negative on a non-empty history the policy returns 0. -/
theorem decision_output_nonneg (hist : List RoleState) (orders : List Int) (s w : Int) :
    0 ≤ BlackBoxOrderWithPipeline hist orders s w ∧
    0 ≤ BlackBoxOrder hist s w ∧
    (¬ hist.length = 0 →
      movingAverageIncomingOrders hist w * 3 -
          ((hist.getLastD ⟨0, 0, 0, 0⟩).inventory - (hist.getLastD ⟨0, 0, 0, 0⟩).backlog +
            pipelineAux 0 hist orders) < 0 →
      BlackBoxOrderWithPipeline hist orders s w = 0) ∧
    (¬ hist.length = 0 →
      movingAverageIncomingOrders hist w + (hist.getLastD ⟨0, 0, 0, 0⟩).backlog + s -
          (hist.getLastD ⟨0, 0, 0, 0⟩).inventory < 0 →
      BlackBoxOrder hist s w = 0) := by
  refine ⟨?_, ?_, ?_, ?_⟩
  · by_cases h : hist.length = 0
    · simp [BlackBoxOrderWithPipeline, h]
    · rw [blackBoxPipeline_max_formula hist orders s w h]; omega
  · by_cases h : hist.length = 0
    · simp [BlackBoxOrder, h]
    · rw [blackBox_max_formula hist s w h]; omega
  · intro h hneg
    rw [blackBoxPipeline_max_formula hist orders s w h]
    omega
  · intro h hneg
    rw [blackBox_max_formula hist s w h]
    omega

/-- C5 witness: with inventory far exceeding demand, both policies clamp the
negative unclamped formula to 0. -/
theorem decision_output_nonneg_witness :
    BlackBoxOrderWithPipeline [⟨100, 0, 1, 0⟩] [0] 0 1 = 0 ∧
    BlackBoxOrder [⟨100, 0, 1, 0⟩] 0 1 = 0 :=
  ⟨(decision_output_nonneg [⟨100, 0, 1, 0⟩] [0] 0 1).2.2.1 (by decide) (by decide),
   (decision_output_nonneg [⟨100, 0, 1, 0⟩] [0] 0 1).2.2.2 (by decide) (by decide)⟩

/-- C6: the pipeline-aware policy's output does not depend on the
`safetyStock` argument. -/
theorem pipeline_policy_ignores_safety_stock (hist : List RoleState)
    (orders : List Int) (s1 s2 w : Int) :
    BlackBoxOrderWithPipeline hist orders s1 w =
      BlackBoxOrderWithPipeline hist orders s2 w := rfl

/-- C7: the simple policy is a distinct function which, on every non-empty
history, returns `max 0 (forecast + last.backlog + safetyStock −
last.inventory)`. -/
theorem simple_policy_formula (hist : List RoleState) (s w : Int) (h : hist ≠ []) :
    BlackBoxOrder hist s w =
      max 0 (movingAverageIncomingOrders hist w + (hist.getLastD ⟨0, 0, 0, 0⟩).backlog + s -
        (hist.getLastD ⟨0, 0, 0, 0⟩).inventory) :=
  blackBox_max_formula hist s w (by simpa [List.length_eq_zero] using h)

/-- C7 witness: the spec's worked example — single week inventory=5,
backlog=2, incomingOrders=8, safetyStock=10, window=4 — yields order 15. -/
theorem simple_policy_formula_witness :
    BlackBoxOrder [⟨5, 2, 8, 0⟩] 10 4 = 15 := by
  rw [simple_policy_formula [⟨5, 2, 8, 0⟩] 10 4 (by decide)]
  decide

/-- C8: the handler's per-role decision applies the `maxOrder` cap exactly
once to the policy output, uniformly for every role; the cap clamps to
`maxOrder` only when `maxOrder > 0` and the value exceeds it, and a
`maxOrder` of 0 passes every value through. -/
theorem max_order_cap_uniform (cfg : Config) (weeks : List WeekState) (m v : Int) :
    decideOrders cfg weeks = allRoles.map (fun role =>
      (role, applyMaxOrder cfg.maxOrder
        (BlackBoxOrderWithPipeline (ExtractRoleHistory weeks role)
          (ExtractRoleOrders weeks role) cfg.safetyStock cfg.maWindow))) ∧
    (0 < m → m < v → applyMaxOrder m v = m) ∧
    (0 < m → v ≤ m → applyMaxOrder m v = v) ∧
    (m = 0 → applyMaxOrder m v = v) := by
  refine ⟨rfl, ?_, ?_, ?_⟩
  · intro hm hv
    simp only [applyMaxOrder]
    rw [if_pos ⟨hm, hv⟩]
  · intro hm hv
    simp only [applyMaxOrder]
    rw [if_neg (by omega)]
  · intro hm
    simp only [applyMaxOrder]
    rw [if_neg (by omega)]

/-- C8 witness: a cap of 5 clamps the value 7 to 5, and a cap of 0 passes 7
through unchanged. -/
theorem max_order_cap_uniform_witness :
    applyMaxOrder 5 7 = 5 ∧ applyMaxOrder 0 7 = 7 :=
  ⟨(max_order_cap_uniform ⟨10, 4, 0⟩ [] 5 7).2.1 (by decide) (by decide),
   (max_order_cap_uniform ⟨10, 4, 0⟩ [] 0 7).2.2.2 rfl⟩

/-- C9: `ExtractRoleHistory` returns one entry per week — the role's state
when the week's role map has it, the all-zero `RoleState` when it is
missing — and never fails. -/
theorem extract_role_history_total (weeks : List WeekState) (role : String) :
    (ExtractRoleHistory weeks role).length = weeks.length ∧
    ∀ i : Nat, (ExtractRoleHistory weeks role)[i]? =
      (weeks[i]?).map (fun wk =>
        match wk.roles.lookup role with
        | some rs => rs
        | none => ⟨0, 0, 0, 0⟩) := by
  refine ⟨List.length_map _ _, fun i => ?_⟩
  simp only [ExtractRoleHistory, List.getElem?_map]
  cases weeks[i]? with
  | none => rfl
  | some wk =>
    cases h : wk.roles.lookup role <;> simp [h]

/-- C10: in the buffered handler, a request with a non-empty `Weeks` slice
reaches the per-role decision loop, and every role's extracted history has
the same length as `Weeks`, so its last element exists. -/
theorem handler_last_access_in_bounds (cfg : Config) (req : WeeklyRequest)
    (h : req.weeks ≠ []) :
    handleWeekly cfg req = decideOrders cfg req.weeks ∧
    ∀ role : String, (ExtractRoleHistory req.weeks role).getLast?.isSome = true ∧
      (ExtractRoleHistory req.weeks role).length = req.weeks.length := by
  refine ⟨?_, fun role => ⟨?_, List.length_map _ _⟩⟩
  · rw [handleWeekly, if_neg (by simpa [List.length_eq_zero] using h)]
  · rw [List.getLast?_isSome]
    simpa [ExtractRoleHistory] using h

/-- C10 witness: a one-week request takes the decision branch and the
retailer history's last element exists. -/
theorem handler_last_access_in_bounds_witness :
    handleWeekly ⟨10, 4, 0⟩ ⟨1, 36, 0, [⟨1, [], []⟩]⟩ =
      decideOrders ⟨10, 4, 0⟩ [⟨1, [], []⟩] ∧
    (ExtractRoleHistory [⟨1, [], []⟩] "retailer").getLast?.isSome = true :=
  ⟨(handler_last_access_in_bounds ⟨10, 4, 0⟩ ⟨1, 36, 0, [⟨1, [], []⟩]⟩ (by decide)).1,
   ((handler_last_access_in_bounds ⟨10, 4, 0⟩ ⟨1, 36, 0, [⟨1, [], []⟩]⟩ (by decide)).2
      "retailer").1⟩
